import Mathlib

/-!
# Upload form of the photo gallery (`js/form.js`)

A shallow embedding of the validators, the file guard, the overlay
controller and the submit handler of `js/form.js`, followed by the theorems
that settle the specification's claims about them.

JavaScript strings are sequences of UTF-16 code units; they are embedded as
lists of natural numbers, one per code unit.  The Unicode case tables of the
JavaScript engine are not part of the repository and enter as a parameter
(`Runtime`).
-/

namespace Form

/-! ## JavaScript strings -/

/-- A JavaScript string: its UTF-16 code units, in order. -/
abbrev JSString := List Nat

/-- UTF-16 encoding of one Unicode scalar value. -/
def encodeUtf16 (cp : Nat) : JSString :=
  if cp < 65536 then [cp]
  else [55296 + (cp - 65536) / 1024, 56320 + (cp - 65536) % 1024]

/-- The JavaScript string written by a source-text literal. -/
def js (s : String) : JSString :=
  s.toList.flatMap (fun ch => encodeUtf16 ch.toNat)

/-- The method `String.prototype.repeat`. -/
def jsRepeat (s : JSString) : Nat → JSString
  | 0 => []
  | n + 1 => s ++ jsRepeat s n

/-- The property `value.length`: the number of UTF-16 code units. -/
def jsLength (s : JSString) : Nat := s.length

/-- Truthiness of a possibly absent string: `undefined` and `''` are falsy. -/
def truthy : Option JSString → Bool
  | none => false
  | some s => !s.isEmpty

/-- The code units the engine strips in `trim`: WhiteSpace and LineTerminator
of ECMA-262. -/
def isWhiteSpace (c : Nat) : Bool :=
  c == 9 || c == 10 || c == 11 || c == 12 || c == 13 || c == 32 || c == 160 ||
  c == 5760 || (8192 ≤ c && c ≤ 8202) || c == 8232 || c == 8233 || c == 8239 ||
  c == 8287 || c == 12288 || c == 65279

/-- The method `String.prototype.trimStart`. -/
def trimStart (s : JSString) : JSString := s.dropWhile isWhiteSpace

/-- The method `String.prototype.trimEnd`. -/
def trimEnd (s : JSString) : JSString := (s.reverse.dropWhile isWhiteSpace).reverse

/-- The method `String.prototype.trim`. -/
def trim (s : JSString) : JSString := trimEnd (trimStart s)

/-- The method `String.prototype.split` with a separator of one code unit. -/
def split (sep : Nat) : JSString → List JSString
  | [] => [[]]
  | c :: cs =>
    if c = sep then [] :: split sep cs
    else
      match split sep cs with
      | [] => [[c]]
      | t :: ts => (c :: t) :: ts

/-- The method `String.prototype.endsWith`. -/
def endsWith (s suffix : JSString) : Bool := suffix.isSuffixOf s

/-- The engine's Unicode case conversion, which lives outside the repository:
`toLowerCase` is `String.prototype.toLowerCase`, `toUpperCase` is the
upper-casing of a single code unit that regular-expression case folding uses
(its result may be longer than one code unit). -/
structure Runtime where
  toLowerCase : JSString → JSString
  toUpperCase : Nat → JSString

/-! ## Regular expressions -/

/-- A pattern character or a character class given by inclusive ranges. -/
inductive Atom where
  | char (c : Nat)
  | cls (ranges : List (Nat × Nat))
  deriving DecidableEq, Repr

/-- The terms of a pattern: the assertions `^` and `$`, an atom, or an atom
under a greedy bounded quantifier. -/
inductive Term where
  | bol
  | eol
  | atom (a : Atom)
  | rep (a : Atom) (min max : Nat)
  deriving DecidableEq, Repr

/-- A regular expression literal: its terms and its `i` flag. -/
structure RegExp where
  terms : List Term
  ignoreCase : Bool

/-- The operation `Canonicalize` of ECMA-262 for a pattern without the `u` flag:
with the `i` flag a code unit is replaced by its upper-case form when that is
one code unit and does not turn a non-ASCII code unit into an ASCII one. -/
def canonicalize (rt : Runtime) (ignoreCase : Bool) (ch : Nat) : Nat :=
  if ignoreCase then
    match rt.toUpperCase ch with
    | [cu] => if 128 ≤ ch ∧ cu < 128 then ch else cu
    | _ => ch
  else ch

/-- The members of a character class. -/
def classMembers (ranges : List (Nat × Nat)) : List Nat :=
  ranges.flatMap (fun r => List.range' r.1 (r.2 + 1 - r.1))

/-- Whether an atom matches one code unit: some member of the atom's
character set has the same canonical form. -/
def atomMatches (rt : Runtime) (ic : Bool) (a : Atom) (ch : Nat) : Bool :=
  match a with
  | .char c => canonicalize rt ic c == canonicalize rt ic ch
  | .cls ranges =>
    (classMembers ranges).any (fun m => canonicalize rt ic m == canonicalize rt ic ch)

/-- A greedy quantifier `{min,max}` over a one-character test `p`, followed by
the continuation `k`: one more repetition is tried first, then the
continuation. -/
def matchRep (p : Nat → Bool) (k : Nat → JSString → Bool) :
    Nat → Nat → Nat → JSString → Bool
  | min, 0, pos, inp => min == 0 && k pos inp
  | min, max + 1, pos, inp =>
    (match inp with
      | [] => false
      | c :: rest => p c && matchRep p k (min - 1) max (pos + 1) rest)
    || (min == 0 && k pos inp)

/-- Backtracking match of a term list at position `pos`, where `inp` is the
input from `pos` on. -/
def matchTerms (rt : Runtime) (ic : Bool) : List Term → Nat → JSString → Bool
  | [], _, _ => true
  | .bol :: ts, pos, inp => pos == 0 && matchTerms rt ic ts pos inp
  | .eol :: ts, pos, inp => inp.isEmpty && matchTerms rt ic ts pos inp
  | .atom a :: ts, pos, inp =>
    match inp with
    | [] => false
    | c :: rest => atomMatches rt ic a c && matchTerms rt ic ts (pos + 1) rest
  | .rep a min max :: ts, pos, inp =>
    matchRep (atomMatches rt ic a) (fun q rest => matchTerms rt ic ts q rest) min max pos inp

/-- The search of `RegExp.prototype.test`: a match is tried at every start
position from `pos` on. -/
def searchFrom (rt : Runtime) (re : RegExp) : Nat → JSString → Bool
  | pos, [] => matchTerms rt re.ignoreCase re.terms pos []
  | pos, c :: rest =>
    matchTerms rt re.ignoreCase re.terms pos (c :: rest) || searchFrom rt re (pos + 1) rest

/-- The method `RegExp.prototype.test` for a pattern without the `g` and `y`
flags. -/
def RegExp.test (rt : Runtime) (re : RegExp) (s : JSString) : Bool :=
  searchFrom rt re 0 s

/-! ## Constants of `form.js` -/

/-- The pattern `/^#[a-zа-яё0-9]{1,19}$/i`. -/
def HASHTAG_REGEX : RegExp where
  terms := [.bol, .atom (.char 35),
    .rep (.cls [(97, 122), (1072, 1103), (1105, 1105), (48, 57)]) 1 19, .eol]
  ignoreCase := true

/-- The constant `MAX_HASHTAGS`. -/
def MAX_HASHTAGS : Nat := 5

/-- The constant `MAX_COMMENT_LENGTH`. -/
def MAX_COMMENT_LENGTH : Nat := 140

/-- The constant `FILE_TYPES`. -/
def FILE_TYPES : List JSString := [js "jpg", js "jpeg", js "png"]

/-- The constant `MAX_FILE_SIZE`, in bytes. -/
def MAX_FILE_SIZE : Nat := 5 * 1024 * 1024

/-! ## Validators -/

/-- The validator `validateHashtags` of `form.js`; `none` is an absent value. -/
def validateHashtags (rt : Runtime) (value : Option JSString) : Bool :=
  match value with
  | none => true
  | some v =>
    if v.isEmpty then true
    else
      let hashtags := split 32 (rt.toLowerCase (trim v))
      if hashtags.length > MAX_HASHTAGS then false
      else
        let uniqueHashtags := hashtags.dedup
        if uniqueHashtags.length ≠ hashtags.length then false
        else hashtags.all (fun hashtag => HASHTAG_REGEX.test rt hashtag)

/-- The validator `validateComment` of `form.js`; `none` is an absent value. -/
def validateComment (value : Option JSString) : Bool :=
  match value with
  | none => true
  | some v => v.isEmpty || decide (jsLength v ≤ MAX_COMMENT_LENGTH)

/-! ## Specification-side notions -/

/-- The number of Unicode code points of a string: a high surrogate followed
by a low surrogate is one code point, every other code unit is one. -/
def codePointCount : JSString → Nat
  | [] => 0
  | [_] => 1
  | c :: d :: rest =>
    if (55296 ≤ c ∧ c ≤ 56319) ∧ (56320 ≤ d ∧ d ≤ 57343) then 1 + codePointCount rest
    else 1 + codePointCount (d :: rest)

/-- A code unit that is half of a surrogate pair. -/
def isSurrogate (c : Nat) : Bool := 55296 ≤ c && c ≤ 57343

/-- Letters of the Basic Latin block: `A`-`Z` and `a`-`z`. -/
def isLatinLetter (c : Nat) : Bool := (65 ≤ c && c ≤ 90) || (97 ≤ c && c ≤ 122)

/-- Letters of the Unicode Cyrillic block U+0400-U+04FF (all of it except the
thousands sign and the combining marks U+0482-U+0489). -/
def isCyrillicLetter (c : Nat) : Bool := (1024 ≤ c && c ≤ 1153) || (1162 ≤ c && c ≤ 1279)

/-- The digits `0`-`9`. -/
def isDigit (c : Nat) : Bool := 48 ≤ c && c ≤ 57

/-- The Russian capital letters U+0410-U+042F and U+0401. -/
def isRussianCapital (c : Nat) : Bool := (1040 ≤ c && c ≤ 1071) || c == 1025

/-- The characters the class `[a-zа-яё0-9]` takes under the `i` flag: a letter
`a`-`z` or `A`-`Z`, a digit, or a character outside ASCII whose canonical
(upper-case) form is a Russian capital letter. -/
def isHashtagChar (rt : Runtime) (c : Nat) : Bool :=
  isLatinLetter c || isDigit c || (128 ≤ c && isRussianCapital (canonicalize rt true c))

/-- The token shape the code accepts: `#`, then 1 to 19 characters of the
class. -/
def IsHashtag (rt : Runtime) (t : JSString) : Prop :=
  ∃ cs, t = 35 :: cs ∧ 1 ≤ cs.length ∧ cs.length ≤ 19 ∧ ∀ c ∈ cs, isHashtagChar rt c = true

/-- The token shape as the specification words it: `#`, then 1 to 19
characters each a Latin letter, a Cyrillic letter or a digit. -/
def IsHashtagAsStated (t : JSString) : Prop :=
  ∃ cs, t = 35 :: cs ∧ 1 ≤ cs.length ∧ cs.length ≤ 19 ∧
    ∀ c ∈ cs, (isLatinLetter c || isCyrillicLetter c || isDigit c) = true

/-- The hashtag tokens of a field value: trimmed, lower-cased, split on single
spaces. -/
def hashtagTokens (rt : Runtime) (v : JSString) : List JSString :=
  split 32 (rt.toLowerCase (trim v))

/-- The hashtag rule with a given token shape: the value is empty or absent, or
its tokens are at most five, pairwise different and all of that shape. -/
def HashtagRule (rt : Runtime) (shape : JSString → Prop) (value : Option JSString) : Prop :=
  truthy value = false ∨
    ∃ v, value = some v ∧ (hashtagTokens rt v).length ≤ 5 ∧ (hashtagTokens rt v).Nodup ∧
      ∀ t ∈ hashtagTokens rt v, shape t

/-- The part of the Unicode upper-case table the pattern depends on: ASCII
(`a`-`z` go to `A`-`Z`, every other ASCII code unit to itself) and the Russian
alphabet (`а`-`я` go to `А`-`Я`, `ё` to `Ё`). -/
def Runtime.UpperCasesAlphabets (rt : Runtime) : Prop :=
  (∀ c, c < 128 → rt.toUpperCase c = [if 97 ≤ c ∧ c ≤ 122 then c - 32 else c]) ∧
  (∀ c, 1072 ≤ c → c ≤ 1103 → rt.toUpperCase c = [c - 32]) ∧
  rt.toUpperCase 1105 = [1025]

/-- Lower-casing of one code unit in Basic Latin and in U+0400-U+045F. -/
def basicLower (c : Nat) : Nat :=
  if 65 ≤ c ∧ c ≤ 90 then c + 32
  else if 1040 ≤ c ∧ c ≤ 1071 then c + 32
  else if 1024 ≤ c ∧ c ≤ 1039 then c + 80
  else c

/-- Upper-casing of one code unit in Basic Latin and in U+0400-U+045F. -/
def basicUpper (c : Nat) : Nat :=
  if 97 ≤ c ∧ c ≤ 122 then c - 32
  else if 1072 ≤ c ∧ c ≤ 1103 then c - 32
  else if 1104 ≤ c ∧ c ≤ 1119 then c - 80
  else c

/-- A concrete runtime for evaluating examples: it converts case as Unicode
does on Basic Latin and on the Cyrillic range U+0400-U+045F and leaves every
other code unit unchanged, so it agrees with a JavaScript engine on strings
over those two ranges. -/
def basicRuntime : Runtime where
  toLowerCase := fun s => s.map basicLower
  toUpperCase := fun c => [basicUpper c]

/-! ## The form: state and collaborators -/

/-- A selected file: `file.name` and `file.size`. -/
structure File where
  name : JSString
  size : Nat
  deriving DecidableEq, Repr

/-- The element that has keyboard focus (`document.activeElement`): the hashtag
field, the comment field, or anything else. -/
inductive Focus where
  | hashtagInput
  | commentInput
  | other
  deriving DecidableEq, Repr

/-- An object URL, identified by the order of its creation. -/
abbrev Url := Nat

/-- The calls that leave the module or mark the entry of one of its functions,
in the order they are logged. -/
inductive Call where
  | preventDefault
  | pristineValidate
  | formReset
  | pristineReset
  | resetEffects
  | hideForm
  | showForm
  | toggleSubmitButton (disabled : Bool)
  | sendData (hashtags comment : JSString) (file : Option File)
  | showSuccess
  | showError (text : Option String)
  | createObjectURL (url : Url)
  | revokeObjectURL (url : Url)
  deriving DecidableEq, Repr

/-- Whether each collaborator of `effects.js` and `message.js` returns normally
(`true`) or throws (`false`) during one run of a handler. -/
structure Collaborators where
  resetEffects : Bool
  showSuccess : Bool
  showError : Bool
  deriving DecidableEq, Repr

/-- The state the handlers of `form.js` read and write. -/
structure State where
  /-- The text of `hashtagInput.value`. -/
  hashtags : JSString
  /-- The text of `commentInput.value`. -/
  comment : JSString
  /-- The selection `uploadInput.files[0]`. -/
  file : Option File
  /-- Whether `overlay` carries the class `hidden`. -/
  overlayHidden : Bool
  /-- Whether `document.body` carries the class `modal-open`. -/
  modalOpen : Bool
  /-- Whether `onEscKeydown` is installed as a `keydown` listener. -/
  escListener : Bool
  /-- The `disabled` flag of `submitButton`. -/
  submitDisabled : Bool
  /-- The label `submitButton.textContent`. -/
  submitText : String
  /-- The source `previewImage.src`; the empty string is `none`. -/
  previewSrc : Option Url
  /-- The record `previewImage.dataset.currentUrl`; absent or empty is `none`. -/
  currentUrl : Option Url
  /-- Whether the one-shot `load` listener `onImageLoad` is registered. -/
  loadListener : Bool
  /-- Whether the one-shot `error` listener `onImageError` is registered. -/
  errorListener : Bool
  /-- The next object URL the browser hands out. -/
  nextUrl : Url
  /-- The object URLs created and not yet revoked. -/
  liveUrls : List Url
  /-- The number of submit handlers suspended at `await sendData(...)`. -/
  pending : Nat
  /-- The calls made so far, oldest first. -/
  log : List Call
  deriving DecidableEq, Repr

/-- The result of running statements: the state reached and whether an
exception is propagating. -/
structure Outcome where
  state : State
  threw : Bool
  deriving DecidableEq, Repr

/-- Append a call to the log. -/
def State.record (s : State) (c : Call) : State :=
  { s with log := s.log ++ [c] }

/-- The calls logged between an earlier state and a later one. -/
def callsSince (s s1 : State) : List Call := s1.log.drop s.log.length

/-- Call a collaborator: the call is logged, and it returns or throws. -/
def callCollaborator (c : Call) (returns : Bool) (s : State) : Outcome :=
  ⟨s.record c, !returns⟩

/-- Sequencing of statements: the second runs when the first did not throw. -/
def Outcome.andThen (o : Outcome) (f : State → Outcome) : Outcome :=
  if o.threw then o else f o.state

/-- The statement `try body catch handler finally fin`. -/
def tryCatchFinally (body handler fin : State → Outcome) (s : State) : Outcome :=
  let b := body s
  let r := if b.threw then handler b.state else b
  let f := fin r.state
  ⟨f.state, r.threw || f.threw⟩

/-- The label of the submit control while a submission is in flight. -/
def LABEL_PUBLISHING : String := "Публикация..."

/-- The label of the enabled submit control. -/
def LABEL_PUBLISH : String := "Опубликовать"

/-- The message for a file over the size limit. -/
def MESSAGE_TOO_LARGE : String := "Размер файла не должен превышать 5MB"

/-- The message for a file of another type. -/
def MESSAGE_WRONG_TYPE : String := "Загрузите изображение в формате jpg, jpeg или png"

/-- The message for a preview that failed to load. -/
def MESSAGE_LOAD_FAILED : String := "Не удалось загрузить изображение"

/-! ## The functions of `form.js` -/

/-- The function `hideForm` of `form.js`. `form.reset()` empties the two text
fields (the markup, which is not among the sources, is taken to give them no
default value) and the file selection. -/
def hideForm (c : Collaborators) (s : State) : Outcome :=
  let s := s.record .hideForm
  let s := { s with hashtags := [], comment := [], file := none, log := s.log ++ [Call.formReset] }
  let s := s.record .pristineReset
  (callCollaborator .resetEffects c.resetEffects s).andThen fun s =>
  let s := { s with overlayHidden := true }
  let s := { s with modalOpen := false }
  let s := { s with escListener := false }
  let s :=
    match s.currentUrl with
    | some url =>
      { s with liveUrls := s.liveUrls.erase url, currentUrl := none,
               log := s.log ++ [Call.revokeObjectURL url] }
    | none => s
  ⟨{ s with previewSrc := none }, false⟩

/-- The listener `onEscKeydown` of `form.js`. -/
def onEscKeydown (key : JSString) (focus : Focus) (c : Collaborators) (s : State) : Outcome :=
  if key = js "Escape" ∧ focus ≠ .hashtagInput ∧ focus ≠ .commentInput then
    hideForm c (s.record .preventDefault)
  else ⟨s, false⟩

/-- The function `showForm` of `form.js`. -/
def showForm (s : State) : Outcome :=
  let s := s.record .showForm
  let s := { s with overlayHidden := false }
  let s := { s with modalOpen := true }
  ⟨{ s with escListener := true }, false⟩

/-- The function `toggleSubmitButton` of `form.js`. -/
def toggleSubmitButton (disabled : Bool) (s : State) : Outcome :=
  let s := s.record (.toggleSubmitButton disabled)
  let s := { s with submitDisabled := disabled }
  ⟨{ s with submitText := if disabled then LABEL_PUBLISHING else LABEL_PUBLISH }, false⟩

/-- The listener `onImageLoad` of `form.js`. -/
def onImageLoad (s : State) : Outcome := showForm s

/-- The listener `onImageError` of `form.js`. -/
def onImageError (c : Collaborators) (s : State) : Outcome :=
  (hideForm c s).andThen fun s =>
  (callCollaborator (.showError (some MESSAGE_LOAD_FAILED)) c.showError s).andThen fun s =>
  ⟨{ s with file := none }, false⟩

/-- The `change` listener that `initForm` installs on `uploadInput`. -/
def onUploadChange (rt : Runtime) (c : Collaborators) (s : State) : Outcome :=
  match s.file with
  | none => ⟨s, false⟩
  | some file =>
    if file.size > MAX_FILE_SIZE then
      (callCollaborator (.showError (some MESSAGE_TOO_LARGE)) c.showError s).andThen fun s =>
      ⟨{ s with file := none }, false⟩
    else
      let fileName := rt.toLowerCase file.name
      let isMatch := FILE_TYPES.any (fun it => endsWith fileName it)
      if !isMatch then
        (callCollaborator (.showError (some MESSAGE_WRONG_TYPE)) c.showError s).andThen fun s =>
        ⟨{ s with file := none }, false⟩
      else
        let imageUrl := s.nextUrl
        let s := { s with nextUrl := s.nextUrl + 1, liveUrls := s.liveUrls ++ [imageUrl],
                          log := s.log ++ [Call.createObjectURL imageUrl] }
        let s := { s with previewSrc := some imageUrl }
        let s := { s with currentUrl := some imageUrl }
        let s := { s with loadListener := true }
        ⟨{ s with errorListener := true }, false⟩

/-- The `click` listener that `initForm` installs on `cancelButton`. -/
def onCancelClick (c : Collaborators) (s : State) : Outcome := hideForm c s

/-- The `submit` listener that `initForm` installs on `form`, up to the point
where it suspends at `await sendData(...)`; `valid` is what
`pristine.validate()` returns. -/
def onSubmit (valid : Bool) (s : State) : Outcome :=
  let s := s.record .preventDefault
  let s := s.record .pristineValidate
  if !valid then ⟨s, false⟩
  else
    (toggleSubmitButton true s).andThen fun s =>
    let s := s.record (.sendData s.hashtags s.comment s.file)
    ⟨{ s with pending := s.pending + 1 }, false⟩

/-- The `submit` listener from the point where the promise of `sendData`
settles: the rest of the `try` block, the `catch` block and the `finally`
block; `resolved` tells whether the promise was fulfilled. -/
def onSubmitSettled (resolved : Bool) (c : Collaborators) (s : State) : Outcome :=
  tryCatchFinally
    (fun s =>
      if !resolved then ⟨s, true⟩
      else
        (hideForm c s).andThen fun s =>
        callCollaborator .showSuccess c.showSuccess s)
    (fun s => callCollaborator (.showError none) c.showError s)
    (fun s => toggleSubmitButton false s)
    s

/-! ## The event loop -/

/-- The events the browser delivers to the form. -/
inductive Event where
  /-- The user edits the hashtag and comment fields. -/
  | input (hashtags comment : JSString)
  /-- The user picks a file (or none) in the file input. -/
  | change (file : Option File) (c : Collaborators)
  /-- The preview image finished loading. -/
  | load
  /-- The preview image failed to load. -/
  | error (c : Collaborators)
  /-- A key goes down while `focus` has keyboard focus. -/
  | keydown (key : JSString) (focus : Focus) (c : Collaborators)
  /-- The cancel control is clicked. -/
  | cancel (c : Collaborators)
  /-- The form is submitted; `valid` is the result of validation. -/
  | submit (valid : Bool)
  /-- The promise of a suspended submission settles. -/
  | settle (resolved : Bool) (c : Collaborators)
  deriving DecidableEq, Repr

/-- Delivery of one event: the listeners registered for it run, a one-shot
listener is removed before it runs, and an exception a listener throws ends
that listener only. -/
def step (rt : Runtime) (s : State) : Event → State
  | .input hashtags comment => { s with hashtags := hashtags, comment := comment }
  | .change file c => (onUploadChange rt c { s with file := file }).state
  | .load => if s.loadListener then (onImageLoad { s with loadListener := false }).state else s
  | .error c =>
    if s.errorListener then (onImageError c { s with errorListener := false }).state else s
  | .keydown key focus c => if s.escListener then (onEscKeydown key focus c s).state else s
  | .cancel c => (onCancelClick c s).state
  | .submit valid => (onSubmit valid s).state
  | .settle resolved c =>
    if s.pending = 0 then s
    else (onSubmitSettled resolved c { s with pending := s.pending - 1 }).state

/-- Delivery of a sequence of events. -/
def run (rt : Runtime) (s : State) (events : List Event) : State :=
  events.foldl (step rt) s

/-- The state after `initForm`: the overlay hidden, nothing selected, no
object URL created. -/
def initialState : State where
  hashtags := []
  comment := []
  file := none
  overlayHidden := true
  modalOpen := false
  escListener := false
  submitDisabled := false
  submitText := LABEL_PUBLISH
  previewSrc := none
  currentUrl := none
  loadListener := false
  errorListener := false
  nextUrl := 0
  liveUrls := []
  pending := 0
  log := []

/-- An event that belongs to a submission: the submit itself or the settling
of its promise. -/
def Event.isSubmission : Event → Bool
  | .submit _ => true
  | .settle _ _ => true
  | _ => false

/-- All collaborators return normally. -/
def allReturn : Collaborators := ⟨true, true, true⟩

/-- An open form: `photo.png` was selected and its preview loaded, and the user
typed a hashtag and a comment. -/
def openState : State :=
  run basicRuntime initialState
    [.change (some ⟨js "photo.png", 100⟩) allReturn, .load, .input (js "#cat") (js "hello")]

/-- The calls one run of `hideForm` logs. -/
def hideFormCalls (c : Collaborators) (s : State) : List Call :=
  [.hideForm, .formReset, .pristineReset, .resetEffects] ++
    (if c.resetEffects then
      match s.currentUrl with
      | some url => [.revokeObjectURL url]
      | none => []
    else [])

/-- An object URL that is live while the record `currentUrl`, the only URL
`hideForm` revokes, no longer holds it. -/
def Leaked (url : Url) (s : State) : Prop :=
  url ∈ s.liveUrls ∧ s.currentUrl ≠ some url ∧ url < s.nextUrl ∧
    Call.revokeObjectURL url ∉ s.log

/-- The number of times an object URL was revoked. -/
def revocations (s : State) (url : Url) : Nat := s.log.count (.revokeObjectURL url)

/-! ## The regular-expression engine on the hashtag pattern -/

theorem matchRep_iff (p : Nat → Bool) (k : Nat → JSString → Bool) :
    ∀ (mx mn pos : Nat) (inp : JSString),
      matchRep p k mn mx pos inp = true ↔
        ∃ n, mn ≤ n ∧ n ≤ mx ∧ n ≤ inp.length ∧ (∀ c ∈ inp.take n, p c = true) ∧
          k (pos + n) (inp.drop n) = true := by
  intro mx
  induction mx with
  | zero =>
    intro mn pos inp
    simp only [matchRep, Bool.and_eq_true, beq_iff_eq]
    constructor
    · rintro ⟨h0, hk⟩
      exact ⟨0, by omega, le_refl _, Nat.zero_le _, by simp, by simpa using hk⟩
    · rintro ⟨n, h1, h2, -, -, hk⟩
      have hn : n = 0 := by omega
      subst hn
      exact ⟨by omega, by simpa using hk⟩
  | succ mx ih =>
    intro mn pos inp
    simp only [matchRep, Bool.or_eq_true, Bool.and_eq_true, beq_iff_eq]
    constructor
    · rintro (h | ⟨h0, hk⟩)
      · cases inp with
        | nil => simp at h
        | cons c rest =>
          simp only [Bool.and_eq_true] at h
          obtain ⟨hp, hrec⟩ := h
          obtain ⟨n, h1, h2, h3, h4, h5⟩ := (ih (mn - 1) (pos + 1) rest).1 hrec
          refine ⟨n + 1, by omega, by omega, by simp; omega, ?_, ?_⟩
          · intro x hx
            simp only [List.take_succ_cons, List.mem_cons] at hx
            rcases hx with rfl | hx
            · exact hp
            · exact h4 x hx
          · simpa [Nat.add_assoc, Nat.add_comm 1 n] using h5
      · exact ⟨0, by omega, Nat.zero_le _, Nat.zero_le _, by simp, by simpa using hk⟩
    · rintro ⟨n, h1, h2, h3, h4, h5⟩
      cases n with
      | zero =>
        right
        exact ⟨by omega, by simpa using h5⟩
      | succ m =>
        left
        cases inp with
        | nil => simp at h3
        | cons c rest =>
          simp only [Bool.and_eq_true]
          refine ⟨h4 c (by simp), (ih (mn - 1) (pos + 1) rest).2 ⟨m, by omega, by omega, ?_, ?_, ?_⟩⟩
          · simpa using h3
          · intro x hx
            exact h4 x (by simp [hx])
          · simpa [Nat.add_assoc, Nat.add_comm 1 m] using h5

/-- At a position other than the start the pattern does not match: it begins
with `^`. -/
theorem hashtag_matchTerms_pos (rt : Runtime) (pos : Nat) (inp : JSString) (h : pos ≠ 0) :
    matchTerms rt HASHTAG_REGEX.ignoreCase HASHTAG_REGEX.terms pos inp = false := by
  simp [HASHTAG_REGEX, matchTerms, h]

theorem hashtag_searchFrom_pos (rt : Runtime) :
    ∀ (inp : JSString) (pos : Nat), pos ≠ 0 → searchFrom rt HASHTAG_REGEX pos inp = false := by
  intro inp
  induction inp with
  | nil =>
    intro pos h
    simp only [searchFrom]
    exact hashtag_matchTerms_pos rt pos [] h
  | cons c rest ih =>
    intro pos h
    simp only [searchFrom, Bool.or_eq_false_iff]
    exact ⟨hashtag_matchTerms_pos rt pos _ h, ih (pos + 1) (by omega)⟩

/-- The test of the hashtag pattern, in terms of its atoms: the first code
unit matches `#`, and 1 to 19 code units matching the class follow, up to the
end of the input. -/
theorem hashtag_test_iff (rt : Runtime) (s : JSString) :
    HASHTAG_REGEX.test rt s = true ↔
      ∃ c cs, s = c :: cs ∧ atomMatches rt true (.char 35) c = true ∧
        1 ≤ cs.length ∧ cs.length ≤ 19 ∧
        ∀ x ∈ cs, atomMatches rt true
          (.cls [(97, 122), (1072, 1103), (1105, 1105), (48, 57)]) x = true := by
  have key : HASHTAG_REGEX.test rt s =
      matchTerms rt HASHTAG_REGEX.ignoreCase HASHTAG_REGEX.terms 0 s := by
    unfold RegExp.test
    cases s with
    | nil => simp [searchFrom]
    | cons c rest =>
      simp [searchFrom, hashtag_searchFrom_pos rt rest 1 (by omega)]
  rw [key]
  cases s with
  | nil => simp [HASHTAG_REGEX, matchTerms]
  | cons c cs =>
    simp only [HASHTAG_REGEX, matchTerms, beq_self_eq_true, Bool.true_and, Bool.and_eq_true,
      matchRep_iff, Bool.and_true, List.isEmpty_eq_true, List.drop_eq_nil_iff]
    constructor
    · rintro ⟨hc, n, h1, h2, h3, h4, h5⟩
      have hn : n = cs.length := by omega
      subst hn
      refine ⟨c, cs, rfl, hc, h1, h2, ?_⟩
      simpa using h4
    · rintro ⟨c1, cs1, heq, hc, h1, h2, h4⟩
      obtain ⟨rfl, rfl⟩ := List.cons.inj heq
      exact ⟨hc, cs.length, h1, h2, le_refl _, by simpa using h4, le_refl _⟩


/-! ## Case folding under the pinned part of the upper-case table -/

theorem canonicalize_ascii (rt : Runtime) (h : rt.UpperCasesAlphabets) (c : Nat) (hc : c < 128) :
    canonicalize rt true c = if 97 ≤ c ∧ c ≤ 122 then c - 32 else c := by
  have hu := h.1 c hc
  simp only [canonicalize, hu, if_true]
  split_ifs <;> omega

theorem canonicalize_non_ascii (rt : Runtime) (c : Nat) (hc : 128 ≤ c) :
    128 ≤ canonicalize rt true c := by
  simp only [canonicalize, if_true]
  split
  · split_ifs <;> omega
  · exact hc

theorem canonicalize_russian (rt : Runtime) (h : rt.UpperCasesAlphabets) (c : Nat)
    (h1 : 1072 ≤ c) (h2 : c ≤ 1103) : canonicalize rt true c = c - 32 := by
  have hu := h.2.1 c h1 h2
  simp only [canonicalize, hu, if_true]
  split_ifs <;> omega

theorem canonicalize_yo (rt : Runtime) (h : rt.UpperCasesAlphabets) :
    canonicalize rt true 1105 = 1025 := by
  have hu := h.2.2
  simp [canonicalize, hu]

theorem mem_hashtag_class (m : Nat) :
    m ∈ classMembers [(97, 122), (1072, 1103), (1105, 1105), (48, 57)] ↔
      (97 ≤ m ∧ m ≤ 122) ∨ (1072 ≤ m ∧ m ≤ 1103) ∨ m = 1105 ∨ (48 ≤ m ∧ m ≤ 57) := by
  simp only [classMembers, List.flatMap_cons, List.flatMap_nil, List.append_nil, List.mem_append,
    List.mem_range'_1]
  omega

/-- Under the `i` flag the literal `#` matches the code unit 35 only. -/
theorem hash_matches_iff (rt : Runtime) (h : rt.UpperCasesAlphabets) (c : Nat) :
    atomMatches rt true (.char 35) c = true ↔ c = 35 := by
  simp only [atomMatches, beq_iff_eq]
  rw [canonicalize_ascii rt h 35 (by omega)]
  by_cases hc : c < 128
  · rw [canonicalize_ascii rt h c hc]
    split_ifs <;> omega
  · have := canonicalize_non_ascii rt c (by omega)
    split_ifs <;> omega

/-- Under the `i` flag the class `[a-zа-яё0-9]` matches the characters of
`isHashtagChar`. -/
theorem class_matches_iff (rt : Runtime) (h : rt.UpperCasesAlphabets) (x : Nat) :
    atomMatches rt true (.cls [(97, 122), (1072, 1103), (1105, 1105), (48, 57)]) x = true ↔
      isHashtagChar rt x = true := by
  simp only [atomMatches, List.any_eq_true, beq_iff_eq, mem_hashtag_class, isHashtagChar,
    isLatinLetter, isDigit, isRussianCapital, Bool.or_eq_true, Bool.and_eq_true,
    decide_eq_true_eq]
  by_cases hx : x < 128
  · have hcx := canonicalize_ascii rt h x hx
    constructor
    · rintro ⟨m, hm, heq⟩
      rcases hm with hm | hm | hm | hm
      · rw [canonicalize_ascii rt h m (by omega), hcx] at heq
        split_ifs at heq <;> omega
      · rw [canonicalize_russian rt h m hm.1 hm.2, hcx] at heq
        split_ifs at heq <;> omega
      · rw [hm, canonicalize_yo rt h, hcx] at heq
        split_ifs at heq <;> omega
      · rw [canonicalize_ascii rt h m (by omega), hcx] at heq
        split_ifs at heq <;> omega
    · rintro ((hl | hd) | hr)
      · rcases hl with hl | hl
        · refine ⟨x + 32, Or.inl (by omega), ?_⟩
          rw [canonicalize_ascii rt h (x + 32) (by omega), hcx]
          split_ifs <;> omega
        · exact ⟨x, Or.inl hl, rfl⟩
      · exact ⟨x, Or.inr (Or.inr (Or.inr hd)), rfl⟩
      · omega
  · have hge := canonicalize_non_ascii rt x (by omega)
    constructor
    · rintro ⟨m, hm, heq⟩
      right
      refine ⟨by omega, ?_⟩
      rcases hm with hm | hm | hm | hm
      · rw [canonicalize_ascii rt h m (by omega)] at heq
        (split_ifs at heq; omega)
      · rw [canonicalize_russian rt h m hm.1 hm.2] at heq
        left
        omega
      · rw [hm, canonicalize_yo rt h] at heq
        right
        omega
      · rw [canonicalize_ascii rt h m (by omega)] at heq
        split_ifs at heq <;> omega
    · rintro ((hl | hd) | ⟨-, hr⟩)
      · omega
      · omega
      · rcases hr with hr | hr
        · refine ⟨canonicalize rt true x + 32, Or.inr (Or.inl (by omega)), ?_⟩
          rw [canonicalize_russian rt h _ (by omega) (by omega)]
          omega
        · exact ⟨1105, Or.inr (Or.inr (Or.inl rfl)), by rw [canonicalize_yo rt h, hr]⟩

/-- The hashtag pattern accepts exactly the tokens of shape `IsHashtag`. -/
theorem hashtag_test_iff_isHashtag (rt : Runtime) (h : rt.UpperCasesAlphabets) (t : JSString) :
    HASHTAG_REGEX.test rt t = true ↔ IsHashtag rt t := by
  rw [hashtag_test_iff]
  unfold IsHashtag
  constructor
  · rintro ⟨c, cs, rfl, hc, h1, h2, h3⟩
    rw [hash_matches_iff rt h] at hc
    subst hc
    exact ⟨cs, rfl, h1, h2, fun x hx => (class_matches_iff rt h x).1 (h3 x hx)⟩
  · rintro ⟨cs, rfl, h1, h2, h3⟩
    exact ⟨35, cs, rfl, (hash_matches_iff rt h 35).2 rfl, h1, h2,
      fun x hx => (class_matches_iff rt h x).2 (h3 x hx)⟩

theorem basicRuntime_upperCasesAlphabets : basicRuntime.UpperCasesAlphabets := by
  refine ⟨?_, ?_, ?_⟩
  · intro c hc
    simp only [basicRuntime, basicUpper]
    split_ifs <;> first | rfl | omega
  · intro c h1 h2
    simp only [basicRuntime, basicUpper]
    split_ifs <;> first | rfl | omega
  · simp [basicRuntime, basicUpper]


/-! ## The validators -/

theorem dedup_length_eq_iff (l : List JSString) : l.dedup.length = l.length ↔ l.Nodup := by
  constructor
  · intro h
    exact List.dedup_eq_self.1 ((List.dedup_sublist l).eq_of_length h)
  · intro h
    rw [List.dedup_eq_self.2 h]

/-- The decision of `validateHashtags` on a non-empty value, step by step. -/
theorem validateHashtags_some (rt : Runtime) (v : JSString) (hv : v ≠ []) :
    validateHashtags rt (some v) = true ↔
      (hashtagTokens rt v).length ≤ 5 ∧ (hashtagTokens rt v).Nodup ∧
        ∀ t ∈ hashtagTokens rt v, HASHTAG_REGEX.test rt t = true := by
  have hne : v.isEmpty = false := by
    cases v with
    | nil => exact absurd rfl hv
    | cons _ _ => rfl
  simp only [validateHashtags, hne, hashtagTokens, MAX_HASHTAGS, Bool.false_eq_true, if_false]
  by_cases h5 : (split 32 (rt.toLowerCase (trim v))).length > 5
  · simp only [h5, if_true, Bool.false_eq_true, false_iff]
    intro h
    omega
  · simp only [h5, if_false]
    by_cases hd : (split 32 (rt.toLowerCase (trim v))).dedup.length =
        (split 32 (rt.toLowerCase (trim v))).length
    · have hnd := (dedup_length_eq_iff _).1 hd
      simp only [ne_eq, hd, not_true_eq_false, if_false, List.all_eq_true]
      constructor
      · intro h
        exact ⟨by omega, hnd, h⟩
      · intro h
        exact h.2.2
    · have hnd : ¬ (split 32 (rt.toLowerCase (trim v))).Nodup :=
        fun h => hd ((dedup_length_eq_iff _).2 h)
      simp only [ne_eq, hd, not_false_eq_true, if_true, Bool.false_eq_true, false_iff]
      intro h
      exact hnd h.2.1

theorem codePointCount_eq_length :
    ∀ (v : JSString), (∀ c ∈ v, isSurrogate c = false) → codePointCount v = v.length := by
  intro v
  induction v with
  | nil => intro _; rfl
  | cons c rest ih =>
    intro h
    cases rest with
    | nil => rfl
    | cons d rest =>
      have hc : isSurrogate c = false := h c (by simp)
      have hrest := ih (fun x hx => h x (List.mem_cons_of_mem _ hx))
      simp only [isSurrogate, Bool.and_eq_false_iff, decide_eq_false_iff_not] at hc
      have hcond : ¬ ((55296 ≤ c ∧ c ≤ 56319) ∧ (56320 ≤ d ∧ d ≤ 57343)) := by omega
      simp only [codePointCount, hcond, if_false, hrest, List.length_cons]
      omega

/-- C1 (as amended): for every possibly absent string and every runtime whose
upper-case table treats ASCII and the Russian alphabet as Unicode does,
`validateHashtags` returns true if and only if the value is empty or absent, or
its tokens (the value trimmed, lower-cased and split on single spaces) are at
most five, pairwise different, and each is `#` followed by 1 to 19 characters
that are a letter `a`-`z` or `A`-`Z`, a digit `0`-`9`, or a character whose
upper-case form is a Russian capital letter `А`-`Я` or `Ё`. -/
theorem validateHashtags_iff (rt : Runtime) (h : rt.UpperCasesAlphabets)
    (value : Option JSString) :
    validateHashtags rt value = true ↔ HashtagRule rt (IsHashtag rt) value := by
  cases value with
  | none => simp [validateHashtags, HashtagRule, truthy]
  | some v =>
    by_cases hv : v = []
    · subst hv
      simp [validateHashtags, HashtagRule, truthy]
    · rw [validateHashtags_some rt v hv]
      have ht : truthy (some v) = true := by
        cases v with
        | nil => exact absurd rfl hv
        | cons _ _ => rfl
      simp only [HashtagRule, ht, Bool.true_eq_false, false_or, Option.some.injEq,
        exists_eq_left']
      constructor
      · rintro ⟨h1, h2, h3⟩
        exact ⟨h1, h2, fun t ht => (hashtag_test_iff_isHashtag rt h t).1 (h3 t ht)⟩
      · rintro ⟨h1, h2, h3⟩
        exact ⟨h1, h2, fun t ht => (hashtag_test_iff_isHashtag rt h t).2 (h3 t ht)⟩

/-- C1 (witness): on the concrete runtime the amended rule decides
`#tag1 #tag2`, which is accepted, while `tag1`, `#` with twenty letters `a`
and `#Foo #foo` are rejected. -/
theorem validateHashtags_iff_witness :
    basicRuntime.UpperCasesAlphabets ∧
    (validateHashtags basicRuntime (some (js "#tag1 #tag2")) = true ↔
      HashtagRule basicRuntime (IsHashtag basicRuntime) (some (js "#tag1 #tag2"))) ∧
    validateHashtags basicRuntime (some (js "#tag1 #tag2")) = true ∧
    validateHashtags basicRuntime (some (js "tag1")) = false ∧
    validateHashtags basicRuntime (some (js "#" ++ jsRepeat (js "a") 20)) = false ∧
    validateHashtags basicRuntime (some (js "#Foo #foo")) = false :=
  ⟨basicRuntime_upperCasesAlphabets,
   validateHashtags_iff basicRuntime basicRuntime_upperCasesAlphabets (some (js "#tag1 #tag2")),
   by decide, by decide, by decide, by decide⟩

/-- C1 (counterexample): the token `#і`, whose letter U+0456 is a Cyrillic
letter, satisfies the rule as the specification words it, and
`validateHashtags` rejects it. -/
theorem validateHashtags_rejects_cyrillic_letter :
    HashtagRule basicRuntime IsHashtagAsStated (some [35, 1110]) ∧
    validateHashtags basicRuntime (some [35, 1110]) = false := by
  refine ⟨Or.inr ⟨[35, 1110], rfl, by decide, by decide, ?_⟩, by decide⟩
  intro t ht
  have ht2 : t = [35, 1110] := by
    have : hashtagTokens basicRuntime [35, 1110] = [[35, 1110]] := by decide
    rw [this] at ht
    simpa using ht
  subst ht2
  exact ⟨[1110], rfl, by decide, by decide, by decide⟩

/-- C2: for every non-empty hashtag value whose tokens (the value trimmed,
lower-cased and split on single spaces) are more than five,
`validateHashtags` returns false. -/
theorem validateHashtags_more_than_five (rt : Runtime) (v : JSString) (hv : v ≠ [])
    (h : 5 < (hashtagTokens rt v).length) : validateHashtags rt (some v) = false := by
  cases hres : validateHashtags rt (some v) with
  | false => rfl
  | true =>
    have := ((validateHashtags_some rt v hv).1 hres).1
    omega

/-- C2 (witness): six well-formed tags are rejected. -/
theorem validateHashtags_more_than_five_witness :
    validateHashtags basicRuntime (some (js "#a #b #c #d #e #f")) = false :=
  validateHashtags_more_than_five basicRuntime (js "#a #b #c #d #e #f") (by decide) (by decide)

/-- C3 (as amended): for every possibly absent string, `validateComment`
returns true if and only if the value is empty or absent or its length in
UTF-16 code units is at most 140; for a value without surrogate code units
that length is its number of code points. -/
theorem validateComment_iff (value : Option JSString) :
    (validateComment value = true ↔
      truthy value = false ∨ ∃ v, value = some v ∧ jsLength v ≤ 140) ∧
    (∀ v, value = some v → (∀ c ∈ v, isSurrogate c = false) →
      (validateComment value = true ↔ v = [] ∨ codePointCount v ≤ 140)) := by
  cases value with
  | none => simp [validateComment, truthy]
  | some v =>
    constructor
    · cases v with
      | nil => simp [validateComment, truthy]
      | cons c cs => simp [validateComment, truthy, MAX_COMMENT_LENGTH]
    · intro w hw hs
      obtain rfl : v = w := Option.some.inj hw
      rw [codePointCount_eq_length v hs]
      cases v with
      | nil => simp [validateComment]
      | cons c cs => simp [validateComment, jsLength, MAX_COMMENT_LENGTH]

set_option maxRecDepth 4096 in
/-- C3 (witness): 140 letters `a` are accepted and 141 are rejected. -/
theorem validateComment_iff_witness :
    validateComment (some (jsRepeat (js "a") 140)) = true ∧
    validateComment (some (jsRepeat (js "a") 141)) = false := by
  refine ⟨((validateComment_iff (some (jsRepeat (js "a") 140))).2 _ rfl (by decide)).2
      (Or.inr (by decide)), ?_⟩
  cases hres : validateComment (some (jsRepeat (js "a") 141)) with
  | false => rfl
  | true =>
    have := ((validateComment_iff (some (jsRepeat (js "a") 141))).2 _ rfl (by decide)).1 hres
    revert this
    decide

set_option maxRecDepth 4096 in
/-- C3 (counterexample): 71 copies of U+1F600 are 71 code points, at most 140,
and `validateComment` rejects them, their length being 142 code units. -/
theorem validateComment_rejects_71_code_points :
    jsRepeat [55357, 56832] 71 ≠ [] ∧ codePointCount (jsRepeat [55357, 56832] 71) ≤ 140 ∧
    validateComment (some (jsRepeat [55357, 56832] 71)) = false := by
  decide


/-! ## The handlers -/

theorem callsSince_of_log (s s1 : State) (l : List Call) (h : s1.log = s.log ++ l) :
    callsSince s s1 = l := by
  simp [callsSince, h]

theorem hideForm_log (c : Collaborators) (s : State) :
    (hideForm c s).state.log = s.log ++ hideFormCalls c s := by
  rcases c with ⟨re, ss, se⟩
  cases re <;> cases hcu : s.currentUrl <;>
    simp [hideForm, hideFormCalls, callCollaborator, Outcome.andThen, State.record, hcu]

theorem hideForm_threw (c : Collaborators) (s : State) :
    (hideForm c s).threw = !c.resetEffects := by
  rcases c with ⟨re, ss, se⟩
  cases re <;> cases hcu : s.currentUrl <;>
    simp [hideForm, callCollaborator, Outcome.andThen, State.record, hcu]

theorem hideForm_submit (c : Collaborators) (s : State) :
    (hideForm c s).state.submitDisabled = s.submitDisabled ∧
    (hideForm c s).state.submitText = s.submitText ∧
    (hideForm c s).state.pending = s.pending := by
  rcases c with ⟨re, ss, se⟩
  cases re <;> cases hcu : s.currentUrl <;>
    simp [hideForm, callCollaborator, Outcome.andThen, State.record, hcu]

theorem hideForm_fields (c : Collaborators) (s : State) :
    (hideForm c s).state.hashtags = [] ∧ (hideForm c s).state.comment = [] ∧
    (hideForm c s).state.file = none := by
  rcases c with ⟨re, ss, se⟩
  cases re <;> cases hcu : s.currentUrl <;>
    simp [hideForm, callCollaborator, Outcome.andThen, State.record, hcu]

theorem hideForm_returns (c : Collaborators) (s : State) (h : c.resetEffects = true) :
    (hideForm c s).state.overlayHidden = true ∧ (hideForm c s).state.modalOpen = false ∧
    (hideForm c s).state.escListener = false ∧ (hideForm c s).state.currentUrl = none ∧
    (hideForm c s).state.previewSrc = none ∧
    (hideForm c s).state.liveUrls =
      (match s.currentUrl with
        | some url => s.liveUrls.erase url
        | none => s.liveUrls) ∧
    (hideForm c s).state.nextUrl = s.nextUrl := by
  rcases c with ⟨re, ss, se⟩
  simp only at h
  subst h
  cases hcu : s.currentUrl <;>
    simp [hideForm, callCollaborator, Outcome.andThen, State.record, hcu]


theorem any_endsWith_iff (name : JSString) :
    FILE_TYPES.any (fun it => endsWith name it) = true ↔
      ∃ t ∈ [js "jpg", js "jpeg", js "png"], t <:+ name := by
  simp [FILE_TYPES, endsWith]

theorem onUploadChange_too_large (rt : Runtime) (c : Collaborators) (s : State) (file : File)
    (hf : s.file = some file) (h : MAX_FILE_SIZE < file.size) :
    onUploadChange rt c s =
      ⟨if c.showError then { s.record (.showError (some MESSAGE_TOO_LARGE)) with file := none }
        else s.record (.showError (some MESSAGE_TOO_LARGE)), !c.showError⟩ := by
  rcases c with ⟨re, ss, se⟩
  cases se <;> simp [onUploadChange, hf, h, callCollaborator, Outcome.andThen]

theorem onUploadChange_wrong_type (rt : Runtime) (c : Collaborators) (s : State) (file : File)
    (hf : s.file = some file) (h : file.size ≤ MAX_FILE_SIZE)
    (ht : FILE_TYPES.any (fun it => endsWith (rt.toLowerCase file.name) it) = false) :
    onUploadChange rt c s =
      ⟨if c.showError then { s.record (.showError (some MESSAGE_WRONG_TYPE)) with file := none }
        else s.record (.showError (some MESSAGE_WRONG_TYPE)), !c.showError⟩ := by
  have h2 : ¬ file.size > MAX_FILE_SIZE := by omega
  rcases c with ⟨re, ss, se⟩
  cases se <;> simp [onUploadChange, hf, h2, ht, callCollaborator, Outcome.andThen]

theorem onUploadChange_accepted (rt : Runtime) (c : Collaborators) (s : State) (file : File)
    (hf : s.file = some file) (h : file.size ≤ MAX_FILE_SIZE)
    (ht : FILE_TYPES.any (fun it => endsWith (rt.toLowerCase file.name) it) = true) :
    onUploadChange rt c s =
      ⟨{ s with nextUrl := s.nextUrl + 1, liveUrls := s.liveUrls ++ [s.nextUrl],
                log := s.log ++ [Call.createObjectURL s.nextUrl],
                previewSrc := some s.nextUrl, currentUrl := some s.nextUrl,
                loadListener := true, errorListener := true }, false⟩ := by
  have h2 : ¬ file.size > MAX_FILE_SIZE := by omega
  simp [onUploadChange, hf, h2, ht]

/-- C4: for every selected file, the change handler creates a preview URL for
it if and only if its size is at most 5*1024*1024 bytes and its lower-cased
name ends with `jpg`, `jpeg` or `png`; a larger file is answered with the
"file too large" message alone, whatever its name, and a file within the limit
with none of the endings with the "unsupported type" message alone. -/
theorem onUploadChange_accepts_iff (rt : Runtime) (c : Collaborators) (s : State) (file : File)
    (hf : s.file = some file) :
    ((∃ url, Call.createObjectURL url ∈ callsSince s (onUploadChange rt c s).state) ↔
      file.size ≤ 5 * 1024 * 1024 ∧
        ∃ t ∈ [js "jpg", js "jpeg", js "png"], t <:+ rt.toLowerCase file.name) ∧
    (5 * 1024 * 1024 < file.size →
      callsSince s (onUploadChange rt c s).state = [.showError (some MESSAGE_TOO_LARGE)]) ∧
    (file.size ≤ 5 * 1024 * 1024 →
      (¬ ∃ t ∈ [js "jpg", js "jpeg", js "png"], t <:+ rt.toLowerCase file.name) →
      callsSince s (onUploadChange rt c s).state = [.showError (some MESSAGE_WRONG_TYPE)]) ∧
    (file.size ≤ 5 * 1024 * 1024 →
      (∃ t ∈ [js "jpg", js "jpeg", js "png"], t <:+ rt.toLowerCase file.name) →
      callsSince s (onUploadChange rt c s).state = [.createObjectURL s.nextUrl] ∧
      (onUploadChange rt c s).state.currentUrl = some s.nextUrl ∧
      (onUploadChange rt c s).state.previewSrc = some s.nextUrl) := by
  have hmax : MAX_FILE_SIZE = 5 * 1024 * 1024 := rfl
  rw [← any_endsWith_iff, ← hmax]
  by_cases hsz : MAX_FILE_SIZE < file.size
  · have hcalls : callsSince s (onUploadChange rt c s).state =
        [.showError (some MESSAGE_TOO_LARGE)] := by
      apply callsSince_of_log
      rw [onUploadChange_too_large rt c s file hf hsz]
      cases c.showError <;> simp [State.record]
    refine ⟨?_, fun _ => hcalls, fun h => absurd hsz (by omega), fun h => absurd hsz (by omega)⟩
    rw [hcalls]
    simp
    omega
  · have hle : file.size ≤ MAX_FILE_SIZE := by omega
    cases ht : FILE_TYPES.any (fun it => endsWith (rt.toLowerCase file.name) it) with
    | false =>
      have hcalls : callsSince s (onUploadChange rt c s).state =
          [.showError (some MESSAGE_WRONG_TYPE)] := by
        apply callsSince_of_log
        rw [onUploadChange_wrong_type rt c s file hf hle ht]
        cases c.showError <;> simp [State.record]
      refine ⟨?_, fun h => absurd h hsz, fun _ _ => hcalls, fun _ h => by simp at h⟩
      rw [hcalls]
      simp
    | true =>
      have ho := onUploadChange_accepted rt c s file hf hle ht
      have hcalls : callsSince s (onUploadChange rt c s).state =
          [.createObjectURL s.nextUrl] := by
        apply callsSince_of_log
        rw [ho]
      refine ⟨?_, fun h => absurd h hsz, fun _ h => by simp at h, fun _ _ => ⟨hcalls, ?_, ?_⟩⟩
      · rw [hcalls]
        simp [hle]
      · rw [ho]
      · rw [ho]

/-- C4 (witness): `photo.PNG` of 100 bytes is accepted, and a file of
5*1024*1024+1 bytes is rejected as too large although its name ends with
`png`. -/
theorem onUploadChange_accepts_iff_witness :
    (∃ url, Call.createObjectURL url ∈
      callsSince { initialState with file := some ⟨js "photo.PNG", 100⟩ }
        (onUploadChange basicRuntime allReturn
          { initialState with file := some ⟨js "photo.PNG", 100⟩ }).state) ∧
    callsSince { initialState with file := some ⟨js "photo.png", 5 * 1024 * 1024 + 1⟩ }
        (onUploadChange basicRuntime allReturn
          { initialState with file := some ⟨js "photo.png", 5 * 1024 * 1024 + 1⟩ }).state =
      [.showError (some MESSAGE_TOO_LARGE)] :=
  ⟨(onUploadChange_accepts_iff basicRuntime allReturn
      { initialState with file := some ⟨js "photo.PNG", 100⟩ } ⟨js "photo.PNG", 100⟩ rfl).1.2
      ⟨by decide, js "png", by decide, by decide⟩,
   (onUploadChange_accepts_iff basicRuntime allReturn
      { initialState with file := some ⟨js "photo.png", 5 * 1024 * 1024 + 1⟩ }
      ⟨js "photo.png", 5 * 1024 * 1024 + 1⟩ rfl).2.1 (by decide)⟩

/-- C5: when validation fails, the submit handler returns after
`preventDefault` and the validation call: `sendData`, `showSuccess` and
`showError` are not called, no submission is pending, and the submit control,
the overlay and everything else in the state are as before. -/
theorem onSubmit_invalid (s : State) :
    (onSubmit false s).threw = false ∧
    (onSubmit false s).state = { s with log := s.log ++ [.preventDefault, .pristineValidate] } ∧
    callsSince s (onSubmit false s).state = [.preventDefault, .pristineValidate] ∧
    (∀ h c f, Call.sendData h c f ∉ callsSince s (onSubmit false s).state) ∧
    Call.showSuccess ∉ callsSince s (onSubmit false s).state ∧
    (∀ text, Call.showError text ∉ callsSince s (onSubmit false s).state) ∧
    (∀ d, Call.toggleSubmitButton d ∉ callsSince s (onSubmit false s).state) ∧
    (onSubmit false s).state.submitDisabled = s.submitDisabled ∧
    (onSubmit false s).state.submitText = s.submitText ∧
    (onSubmit false s).state.overlayHidden = s.overlayHidden ∧
    (onSubmit false s).state.pending = s.pending := by
  have hcalls : callsSince s (onSubmit false s).state = [.preventDefault, .pristineValidate] := by
    apply callsSince_of_log
    simp [onSubmit, State.record]
  rw [hcalls]
  simp [onSubmit, State.record]

/-- C9: for every keydown event, `onEscKeydown` calls `hideForm` if and only
if the key is Escape and focus is on neither the hashtag field nor the comment
field; otherwise it leaves the state unchanged, so Escape with focus in either
field leaves the overlay open; and with the overlay open and `resetEffects`
returning, the overlay is hidden afterwards under exactly that condition. -/
theorem onEscKeydown_hides_iff (key : JSString) (focus : Focus) (c : Collaborators)
    (s : State) :
    (Call.hideForm ∈ callsSince s (onEscKeydown key focus c s).state ↔
      key = js "Escape" ∧ focus ≠ .hashtagInput ∧ focus ≠ .commentInput) ∧
    (¬ (key = js "Escape" ∧ focus ≠ .hashtagInput ∧ focus ≠ .commentInput) →
      onEscKeydown key focus c s = ⟨s, false⟩) ∧
    (key = js "Escape" → focus = .hashtagInput ∨ focus = .commentInput →
      (onEscKeydown key focus c s).state.overlayHidden = s.overlayHidden) ∧
    (s.overlayHidden = false → c.resetEffects = true →
      ((onEscKeydown key focus c s).state.overlayHidden = true ↔
        key = js "Escape" ∧ focus ≠ .hashtagInput ∧ focus ≠ .commentInput)) := by
  by_cases hk : key = js "Escape" ∧ focus ≠ .hashtagInput ∧ focus ≠ .commentInput
  · have ho : onEscKeydown key focus c s = hideForm c (s.record .preventDefault) := by
      unfold onEscKeydown
      exact if_pos hk
    have hcalls : callsSince s (onEscKeydown key focus c s).state =
        .preventDefault :: hideFormCalls c (s.record .preventDefault) := by
      apply callsSince_of_log
      rw [ho, hideForm_log]
      simp [State.record]
    refine ⟨?_, fun h => absurd hk h, ?_, ?_⟩
    · rw [hcalls]
      simp [hk, hideFormCalls]
    · rintro - (h | h)
      · exact absurd h hk.2.1
      · exact absurd h hk.2.2
    · intro _ hc
      rw [ho]
      simp [hk, (hideForm_returns c (s.record .preventDefault) hc).1]
  · have ho : onEscKeydown key focus c s = ⟨s, false⟩ := by
      unfold onEscKeydown
      exact if_neg hk
    refine ⟨?_, fun _ => ho, fun _ _ => by rw [ho], ?_⟩
    · rw [ho]
      simp [callsSince, hk]
    · intro h _
      rw [ho]
      simp [h, hk]

/-- C9 (witness): in the open form Escape with focus elsewhere hides the
overlay, and Escape with focus in the comment field leaves it open. -/
theorem onEscKeydown_hides_iff_witness :
    (onEscKeydown (js "Escape") .other allReturn openState).state.overlayHidden = true ∧
    (onEscKeydown (js "Escape") .commentInput allReturn openState).state.overlayHidden = false :=
  ⟨((onEscKeydown_hides_iff (js "Escape") .other allReturn openState).2.2.2 (by decide) rfl).2
      ⟨rfl, by decide, by decide⟩,
   ((onEscKeydown_hides_iff (js "Escape") .commentInput allReturn openState).2.2.1 rfl
      (Or.inr rfl)).trans (by decide)⟩

theorem openState_eq :
    openState =
      { initialState with
        hashtags := js "#cat", comment := js "hello", file := some ⟨js "photo.png", 100⟩,
        overlayHidden := false, modalOpen := true, escListener := true,
        previewSrc := some 0, currentUrl := some 0, errorListener := true, nextUrl := 1,
        liveUrls := [0], log := [.createObjectURL 0, .showForm] } := by
  decide

theorem onImageError_log (c : Collaborators) (s : State) :
    (onImageError c s).state.log =
      s.log ++ hideFormCalls c s ++
        (if c.resetEffects then [.showError (some MESSAGE_LOAD_FAILED)] else []) := by
  rcases c with ⟨re, ss, se⟩
  cases re <;> cases se <;> cases hcu : s.currentUrl <;>
    simp [onImageError, hideForm, hideFormCalls, callCollaborator, Outcome.andThen, State.record,
      hcu]

theorem onImageError_state (c : Collaborators) (s : State) :
    (onImageError c s).state.file = none ∧
    (onImageError c s).state.submitDisabled = s.submitDisabled ∧
    (onImageError c s).state.submitText = s.submitText ∧
    (onImageError c s).state.pending = s.pending ∧
    (c.resetEffects = true → (onImageError c s).state.overlayHidden = true) := by
  rcases c with ⟨re, ss, se⟩
  cases re <;> cases se <;> cases hcu : s.currentUrl <;>
    simp [onImageError, hideForm, callCollaborator, Outcome.andThen, State.record, hcu]

/-- C10 (as amended): file-guard rejection and preview-load failure never call
`showForm`. Preview-load failure calls `hideForm`, which clears the file input,
and reports the failure when `hideForm` returns. File-guard rejection does not
call `hideForm`: its one call is `showError` with the reason, after which it
clears the file input, and it leaves the overlay and the text fields as they
are. -/
theorem rejection_and_load_failure (rt : Runtime) (c : Collaborators) (s : State) :
    (∀ file, s.file = some file →
      (5 * 1024 * 1024 < file.size ∨
        ¬ ∃ t ∈ [js "jpg", js "jpeg", js "png"], t <:+ rt.toLowerCase file.name) →
      Call.showForm ∉ callsSince s (onUploadChange rt c s).state ∧
      Call.hideForm ∉ callsSince s (onUploadChange rt c s).state ∧
      (∃ msg, callsSince s (onUploadChange rt c s).state = [.showError (some msg)]) ∧
      (c.showError = true → (onUploadChange rt c s).state.file = none) ∧
      (onUploadChange rt c s).state.overlayHidden = s.overlayHidden ∧
      (onUploadChange rt c s).state.hashtags = s.hashtags ∧
      (onUploadChange rt c s).state.comment = s.comment) ∧
    (Call.showForm ∉ callsSince s (onImageError c s).state ∧
      Call.hideForm ∈ callsSince s (onImageError c s).state ∧
      (onImageError c s).state.file = none ∧
      (c.resetEffects = true →
        Call.showError (some MESSAGE_LOAD_FAILED) ∈ callsSince s (onImageError c s).state ∧
        (onImageError c s).state.overlayHidden = true)) := by
  constructor
  · intro file hf hrej
    have ho : ∃ msg, onUploadChange rt c s =
        ⟨if c.showError then { s.record (.showError (some msg)) with file := none }
          else s.record (.showError (some msg)), !c.showError⟩ := by
      by_cases hsz : MAX_FILE_SIZE < file.size
      · exact ⟨_, onUploadChange_too_large rt c s file hf hsz⟩
      · have hle : file.size ≤ MAX_FILE_SIZE := by omega
        have hmax : MAX_FILE_SIZE = 5 * 1024 * 1024 := rfl
        have hno : ¬ ∃ t ∈ [js "jpg", js "jpeg", js "png"], t <:+ rt.toLowerCase file.name := by
          rcases hrej with h | h
          · omega
          · exact h
        rw [← any_endsWith_iff] at hno
        exact ⟨_, onUploadChange_wrong_type rt c s file hf hle (by simpa using hno)⟩
    obtain ⟨msg, ho⟩ := ho
    have hcalls : callsSince s (onUploadChange rt c s).state = [.showError (some msg)] := by
      apply callsSince_of_log
      rw [ho]
      cases c.showError <;> simp [State.record]
    rw [hcalls, ho]
    refine ⟨by simp, by simp, ⟨msg, rfl⟩, ?_, ?_, ?_, ?_⟩
    · intro h
      simp [h]
    · cases c.showError <;> simp [State.record]
    · cases c.showError <;> simp [State.record]
    · cases c.showError <;> simp [State.record]
  · have hcalls : callsSince s (onImageError c s).state =
        hideFormCalls c s ++
          (if c.resetEffects then [.showError (some MESSAGE_LOAD_FAILED)] else []) := by
      apply callsSince_of_log
      rw [onImageError_log, List.append_assoc]
    rw [hcalls]
    refine ⟨?_, by simp [hideFormCalls], (onImageError_state c s).1, ?_⟩
    · rcases c with ⟨re, ss, se⟩
      cases re <;> cases hcu : s.currentUrl <;> simp [hideFormCalls, hcu]
    · intro h
      exact ⟨by simp [h], (onImageError_state c s).2.2.2.2 h⟩

/-- C10 (witness): in the open form a file of 5*1024*1024+1 bytes is rejected
with one `showError` call and the file input cleared, and a failed preview
load calls `hideForm`. -/
theorem rejection_and_load_failure_witness :
    (onUploadChange basicRuntime allReturn
      { openState with file := some ⟨js "big.png", 5 * 1024 * 1024 + 1⟩ }).state.file = none ∧
    Call.hideForm ∈ callsSince openState (onImageError allReturn openState).state :=
  ⟨((rejection_and_load_failure basicRuntime allReturn
      { openState with file := some ⟨js "big.png", 5 * 1024 * 1024 + 1⟩ }).1
      ⟨js "big.png", 5 * 1024 * 1024 + 1⟩ rfl (Or.inl (by decide))).2.2.2.1 rfl,
   (rejection_and_load_failure basicRuntime allReturn openState).2.2.1⟩

/-- C10 (counterexample): in the open form the rejection of a file of
5*1024*1024+1 bytes calls `showError` only; `hideForm` is not called and the
overlay stays open. -/
theorem rejection_does_not_call_hideForm :
    callsSince { openState with file := some ⟨js "big.png", 5 * 1024 * 1024 + 1⟩ }
        (onUploadChange basicRuntime allReturn
          { openState with file := some ⟨js "big.png", 5 * 1024 * 1024 + 1⟩ }).state =
      [.showError (some MESSAGE_TOO_LARGE)] ∧
    Call.hideForm ∉ callsSince { openState with file := some ⟨js "big.png", 5 * 1024 * 1024 + 1⟩ }
        (onUploadChange basicRuntime allReturn
          { openState with file := some ⟨js "big.png", 5 * 1024 * 1024 + 1⟩ }).state ∧
    (onUploadChange basicRuntime allReturn
      { openState with file := some ⟨js "big.png", 5 * 1024 * 1024 + 1⟩ }).state.overlayHidden =
      false := by
  decide


/-! ## The submit control -/

theorem onUploadChange_submit (rt : Runtime) (c : Collaborators) (s : State) :
    (onUploadChange rt c s).state.submitDisabled = s.submitDisabled ∧
    (onUploadChange rt c s).state.submitText = s.submitText ∧
    (onUploadChange rt c s).state.pending = s.pending := by
  cases hf : s.file with
  | none => simp [onUploadChange, hf]
  | some file =>
    by_cases hsz : MAX_FILE_SIZE < file.size
    · rw [onUploadChange_too_large rt c s file hf hsz]
      cases c.showError <;> simp [State.record]
    · have hle : file.size ≤ MAX_FILE_SIZE := by omega
      cases ht : FILE_TYPES.any (fun it => endsWith (rt.toLowerCase file.name) it) with
      | false =>
        rw [onUploadChange_wrong_type rt c s file hf hle ht]
        cases c.showError <;> simp [State.record]
      | true =>
        rw [onUploadChange_accepted rt c s file hf hle ht]
        simp

theorem onEscKeydown_submit (key : JSString) (focus : Focus) (c : Collaborators) (s : State) :
    (onEscKeydown key focus c s).state.submitDisabled = s.submitDisabled ∧
    (onEscKeydown key focus c s).state.submitText = s.submitText ∧
    (onEscKeydown key focus c s).state.pending = s.pending := by
  unfold onEscKeydown
  split_ifs
  · exact hideForm_submit c (s.record .preventDefault)
  · exact ⟨rfl, rfl, rfl⟩

/-- An event that is no submission leaves the submit control as it is. -/
theorem step_submit (rt : Runtime) (s : State) (e : Event) (h : e.isSubmission = false) :
    (step rt s e).submitDisabled = s.submitDisabled ∧
    (step rt s e).submitText = s.submitText ∧
    (step rt s e).pending = s.pending := by
  cases e with
  | input hashtags comment => exact ⟨rfl, rfl, rfl⟩
  | change file c =>
    exact onUploadChange_submit rt c { s with file := file }
  | load =>
    simp only [step]
    split_ifs
    · simp [onImageLoad, showForm, State.record]
    · exact ⟨rfl, rfl, rfl⟩
  | error c =>
    simp only [step]
    split_ifs
    · have h := onImageError_state c { s with errorListener := false }
      exact ⟨h.2.1, h.2.2.1, h.2.2.2.1⟩
    · exact ⟨rfl, rfl, rfl⟩
  | keydown key focus c =>
    simp only [step]
    split_ifs
    · exact onEscKeydown_submit key focus c s
    · exact ⟨rfl, rfl, rfl⟩
  | cancel c => exact hideForm_submit c s
  | submit valid => simp [Event.isSubmission] at h
  | settle resolved c => simp [Event.isSubmission] at h

theorem run_submit (rt : Runtime) (events : List Event) :
    ∀ s : State, (∀ e ∈ events, e.isSubmission = false) →
      (run rt s events).submitDisabled = s.submitDisabled ∧
      (run rt s events).submitText = s.submitText ∧
      (run rt s events).pending = s.pending := by
  induction events with
  | nil => intro s _; exact ⟨rfl, rfl, rfl⟩
  | cons e rest ih =>
    intro s h
    have h1 := step_submit rt s e (h e (by simp))
    have h2 := ih (step rt s e) (fun x hx => h x (List.mem_cons_of_mem _ hx))
    simp only [run, List.foldl_cons] at h2 ⊢
    exact ⟨h2.1.trans h1.1, h2.2.1.trans h1.2.1, h2.2.2.trans h1.2.2⟩

theorem onSubmit_valid (s : State) :
    onSubmit true s =
      ⟨{ s with submitDisabled := true, submitText := LABEL_PUBLISHING,
                pending := s.pending + 1,
                log := s.log ++ [.preventDefault, .pristineValidate, .toggleSubmitButton true,
                  .sendData s.hashtags s.comment s.file] }, false⟩ := by
  simp [onSubmit, toggleSubmitButton, Outcome.andThen, State.record]

theorem onSubmitSettled_state (resolved : Bool) (c : Collaborators) (s : State) :
    (onSubmitSettled resolved c s).state.submitDisabled = false ∧
    (onSubmitSettled resolved c s).state.submitText = LABEL_PUBLISH ∧
    ∃ calls, callsSince s (onSubmitSettled resolved c s).state =
      calls ++ [.toggleSubmitButton false] := by
  refine ⟨by simp [onSubmitSettled, tryCatchFinally, toggleSubmitButton],
    by simp [onSubmitSettled, tryCatchFinally, toggleSubmitButton], ?_⟩
  rcases c with ⟨re, ss, se⟩
  cases resolved
  · refine ⟨[.showError none], callsSince_of_log _ _ _ ?_⟩
    simp [onSubmitSettled, tryCatchFinally, toggleSubmitButton, callCollaborator, State.record]
  · cases re
    · refine ⟨hideFormCalls ⟨false, ss, se⟩ s ++ [.showError none], callsSince_of_log _ _ _ ?_⟩
      simp [onSubmitSettled, tryCatchFinally, toggleSubmitButton, callCollaborator, State.record,
        Outcome.andThen, hideForm_threw, hideForm_log]
    · cases ss
      · refine ⟨hideFormCalls ⟨true, false, se⟩ s ++ [.showSuccess, .showError none],
          callsSince_of_log _ _ _ ?_⟩
        simp [onSubmitSettled, tryCatchFinally, toggleSubmitButton, callCollaborator,
          State.record, Outcome.andThen, hideForm_threw, hideForm_log]
      · refine ⟨hideFormCalls ⟨true, true, se⟩ s ++ [.showSuccess], callsSince_of_log _ _ _ ?_⟩
        simp [onSubmitSettled, tryCatchFinally, toggleSubmitButton, callCollaborator,
          State.record, Outcome.andThen, hideForm_threw, hideForm_log]

/-- C6: for every submission that passes validation, the handler disables the
submit control and gives it the in-progress label before it calls `sendData`;
the control stays so through every sequence of events that are no submission,
up to the settling of the promise; and when the handler finishes, whether the
promise was fulfilled or rejected and whether or not a later collaborator
throws, its last call is `toggleSubmitButton(false)` and the control is enabled
with the label `Опубликовать`, the label it had when it was enabled. -/
theorem submit_control_disabled_while_in_flight (rt : Runtime) (s : State) :
    callsSince s (onSubmit true s).state =
      [.preventDefault, .pristineValidate, .toggleSubmitButton true,
        .sendData s.hashtags s.comment s.file] ∧
    (onSubmit true s).state.submitDisabled = true ∧
    (onSubmit true s).state.submitText = LABEL_PUBLISHING ∧
    (∀ events : List Event, (∀ e ∈ events, e.isSubmission = false) →
      (run rt (onSubmit true s).state events).submitDisabled = true ∧
      (run rt (onSubmit true s).state events).submitText = LABEL_PUBLISHING ∧
      ∀ (resolved : Bool) (c : Collaborators),
        (step rt (run rt (onSubmit true s).state events) (.settle resolved c)).submitDisabled =
          false ∧
        (step rt (run rt (onSubmit true s).state events) (.settle resolved c)).submitText =
          LABEL_PUBLISH ∧
        (s.submitDisabled = false → s.submitText = LABEL_PUBLISH →
          (step rt (run rt (onSubmit true s).state events) (.settle resolved c)).submitText =
            s.submitText)) ∧
    (∀ (resolved : Bool) (c : Collaborators) (s2 : State),
      (onSubmitSettled resolved c s2).state.submitDisabled = false ∧
      (onSubmitSettled resolved c s2).state.submitText = LABEL_PUBLISH ∧
      ∃ calls, callsSince s2 (onSubmitSettled resolved c s2).state =
        calls ++ [.toggleSubmitButton false]) := by
  refine ⟨?_, ?_, ?_, ?_, fun resolved c s2 => onSubmitSettled_state resolved c s2⟩
  · apply callsSince_of_log
    rw [onSubmit_valid]
  · rw [onSubmit_valid]
  · rw [onSubmit_valid]
  · intro events hev
    have hrun := run_submit rt events (onSubmit true s).state hev
    have hstart : (onSubmit true s).state.submitDisabled = true ∧
        (onSubmit true s).state.submitText = LABEL_PUBLISHING := by
      rw [onSubmit_valid]
      exact ⟨rfl, rfl⟩
    refine ⟨hrun.1.trans hstart.1, hrun.2.1.trans hstart.2, ?_⟩
    intro resolved c
    have hpending : (run rt (onSubmit true s).state events).pending ≠ 0 := by
      rw [hrun.2.2, onSubmit_valid]
      exact Nat.succ_ne_zero _
    have hsettle := onSubmitSettled_state resolved c
      { run rt (onSubmit true s).state events with
        pending := (run rt (onSubmit true s).state events).pending - 1 }
    simp only [step, hpending, if_false]
    exact ⟨hsettle.1, hsettle.2.1, fun _ h => hsettle.2.1.trans h.symm⟩


/-- C6 (witness): the open form is submitted; Escape is pressed while the
request is in flight and the control stays disabled; the promise is rejected
and the control is enabled again. -/
theorem submit_control_disabled_while_in_flight_witness :
    (run basicRuntime (onSubmit true openState).state
      [.keydown (js "Escape") .other allReturn]).submitDisabled = true ∧
    (step basicRuntime
      (run basicRuntime (onSubmit true openState).state
        [.keydown (js "Escape") .other allReturn])
      (.settle false allReturn)).submitDisabled = false :=
  ⟨((submit_control_disabled_while_in_flight basicRuntime openState).2.2.2.1
      [.keydown (js "Escape") .other allReturn] (by decide)).1,
   (((submit_control_disabled_while_in_flight basicRuntime openState).2.2.2.1
      [.keydown (js "Escape") .other allReturn] (by decide)).2.2 false allReturn).1⟩

/-! ## The outcome of a submission -/

theorem onSubmitSettled_rejected (c : Collaborators) (s : State) :
    onSubmitSettled false c s =
      ⟨{ s with submitDisabled := false, submitText := LABEL_PUBLISH,
                log := s.log ++ [.showError none, .toggleSubmitButton false] },
        !c.showError⟩ := by
  simp [onSubmitSettled, tryCatchFinally, toggleSubmitButton, callCollaborator, State.record]

theorem onSubmitSettled_fulfilled (c : Collaborators) (s : State)
    (h1 : c.resetEffects = true) (h2 : c.showSuccess = true) :
    (onSubmitSettled true c s).threw = false ∧
    (onSubmitSettled true c s).state.log =
      s.log ++ hideFormCalls c s ++ [.showSuccess, .toggleSubmitButton false] ∧
    (onSubmitSettled true c s).state.overlayHidden = true ∧
    (onSubmitSettled true c s).state.currentUrl = none := by
  have hthrew : (hideForm c s).threw = false := by rw [hideForm_threw, h1]; rfl
  have hr := hideForm_returns c s h1
  simp [onSubmitSettled, tryCatchFinally, toggleSubmitButton, callCollaborator, State.record,
    Outcome.andThen, hthrew, h2, hideForm_log, hr.1, hr.2.2.2.1]

theorem showError_not_mem_hideFormCalls (c : Collaborators) (s : State) (text : Option String) :
    Call.showError text ∉ hideFormCalls c s := by
  rcases c with ⟨re, ss, se⟩
  cases re <;> cases hcu : s.currentUrl <;> simp [hideFormCalls, hcu]

/-- C7: for every submission that passes validation: on success, when
`sendData` resolves (the collaborators `resetEffects` and `showSuccess`
returning), `hideForm` runs, the overlay is closed, success is reported via
`showSuccess` and `showError` is not called; on failure, when `sendData`
rejects for whatever reason, failure is reported via `showError`, `hideForm`
is not called and the form remains open: the overlay, the fields and the
preview URL record are unchanged. -/
theorem onSubmitSettled_outcomes (resolved : Bool) (c : Collaborators) (s : State) :
    (resolved = true → c.resetEffects = true → c.showSuccess = true →
      callsSince s (onSubmitSettled resolved c s).state =
        hideFormCalls c s ++ [.showSuccess, .toggleSubmitButton false] ∧
      Call.hideForm ∈ callsSince s (onSubmitSettled resolved c s).state ∧
      Call.showSuccess ∈ callsSince s (onSubmitSettled resolved c s).state ∧
      (∀ text, Call.showError text ∉ callsSince s (onSubmitSettled resolved c s).state) ∧
      (onSubmitSettled resolved c s).state.overlayHidden = true ∧
      (onSubmitSettled resolved c s).state.currentUrl = none ∧
      (onSubmitSettled resolved c s).threw = false) ∧
    (resolved = false →
      callsSince s (onSubmitSettled resolved c s).state =
        [.showError none, .toggleSubmitButton false] ∧
      Call.hideForm ∉ callsSince s (onSubmitSettled resolved c s).state ∧
      (onSubmitSettled resolved c s).state.overlayHidden = s.overlayHidden ∧
      (onSubmitSettled resolved c s).state.modalOpen = s.modalOpen ∧
      (onSubmitSettled resolved c s).state.escListener = s.escListener ∧
      (onSubmitSettled resolved c s).state.hashtags = s.hashtags ∧
      (onSubmitSettled resolved c s).state.comment = s.comment ∧
      (onSubmitSettled resolved c s).state.file = s.file ∧
      (onSubmitSettled resolved c s).state.currentUrl = s.currentUrl ∧
      (onSubmitSettled resolved c s).state.previewSrc = s.previewSrc ∧
      (onSubmitSettled resolved c s).state.liveUrls = s.liveUrls) := by
  refine ⟨?_, ?_⟩
  · rintro rfl h1 h2
    have h := onSubmitSettled_fulfilled c s h1 h2
    have hcalls : callsSince s (onSubmitSettled true c s).state =
        hideFormCalls c s ++ [.showSuccess, .toggleSubmitButton false] := by
      apply callsSince_of_log
      rw [h.2.1, List.append_assoc]
    rw [hcalls]
    refine ⟨rfl, by simp [hideFormCalls], by simp, ?_, h.2.2.1, h.2.2.2, h.1⟩
    intro text hmem
    rcases List.mem_append.1 hmem with hm | hm
    · exact showError_not_mem_hideFormCalls c s text hm
    · simp at hm
  · rintro rfl
    have hcalls : callsSince s (onSubmitSettled false c s).state =
        [.showError none, .toggleSubmitButton false] := by
      apply callsSince_of_log
      rw [onSubmitSettled_rejected]
    rw [hcalls, onSubmitSettled_rejected]
    simp

/-- C7 (witness): for the submitted open form, fulfilment closes the overlay,
and rejection leaves the overlay open with the fields as typed. -/
theorem onSubmitSettled_outcomes_witness :
    (onSubmitSettled true allReturn (onSubmit true openState).state).state.overlayHidden = true ∧
    (onSubmitSettled false allReturn (onSubmit true openState).state).state.overlayHidden =
      false ∧
    (onSubmitSettled false allReturn (onSubmit true openState).state).state.hashtags =
      js "#cat" :=
  ⟨((onSubmitSettled_outcomes true allReturn (onSubmit true openState).state).1
      rfl rfl rfl).2.2.2.2.1,
   ((onSubmitSettled_outcomes false allReturn (onSubmit true openState).state).2
      rfl).2.2.1.trans (by decide),
   ((onSubmitSettled_outcomes false allReturn (onSubmit true openState).state).2
      rfl).2.2.2.2.2.1.trans (by decide)⟩

/-! ## Preview URLs -/

theorem leaked_record (url : Url) (s : State) (call : Call) (h : Leaked url s)
    (hc : call ≠ .revokeObjectURL url) : Leaked url (s.record call) := by
  obtain ⟨h1, h2, h3, h4⟩ := h
  refine ⟨h1, h2, h3, ?_⟩
  simp only [State.record, List.mem_append, List.mem_singleton, not_or]
  exact ⟨h4, fun e => hc e.symm⟩

theorem leaked_callCollaborator (url : Url) (s : State) (call : Call) (returns : Bool)
    (h : Leaked url s) (hc : call ≠ .revokeObjectURL url) :
    Leaked url (callCollaborator call returns s).state :=
  leaked_record url s call h hc

theorem leaked_andThen (url : Url) (o : Outcome) (f : State → Outcome)
    (ho : Leaked url o.state) (hf : ∀ s, Leaked url s → Leaked url (f s).state) :
    Leaked url (o.andThen f).state := by
  unfold Outcome.andThen
  split_ifs
  · exact ho
  · exact hf _ ho

theorem leaked_tryCatchFinally (url : Url) (body handler fin : State → Outcome) (s : State)
    (hs : Leaked url s)
    (hb : ∀ s, Leaked url s → Leaked url (body s).state)
    (hh : ∀ s, Leaked url s → Leaked url (handler s).state)
    (hf : ∀ s, Leaked url s → Leaked url (fin s).state) :
    Leaked url (tryCatchFinally body handler fin s).state := by
  simp only [tryCatchFinally]
  apply hf
  split_ifs
  · exact hh _ (hb _ hs)
  · exact hb _ hs

theorem leaked_toggleSubmitButton (url : Url) (d : Bool) (s : State) (h : Leaked url s) :
    Leaked url (toggleSubmitButton d s).state := by
  have h2 := leaked_record url s (.toggleSubmitButton d) h (by simp)
  exact h2

theorem leaked_hideForm (url : Url) (c : Collaborators) (s : State) (h : Leaked url s) :
    Leaked url (hideForm c s).state := by
  obtain ⟨h1, h2, h3, h4⟩ := h
  rcases c with ⟨re, ss, se⟩
  cases re
  · refine ⟨?_, ?_, ?_, ?_⟩ <;>
      simp [hideForm, callCollaborator, Outcome.andThen, State.record, h1, h2, h3, h4]
  · cases hcu : s.currentUrl with
    | none =>
      refine ⟨?_, ?_, ?_, ?_⟩ <;>
        simp [hideForm, callCollaborator, Outcome.andThen, State.record, hcu, h1, h3, h4]
    | some u =>
      have hu : url ≠ u := fun e => h2 (by rw [hcu, e])
      refine ⟨?_, ?_, ?_, ?_⟩ <;>
        simp [hideForm, callCollaborator, Outcome.andThen, State.record, hcu, h1, h3, h4,
          List.mem_erase_of_ne hu, hu]

theorem leaked_onUploadChange (url : Url) (rt : Runtime) (c : Collaborators) (s : State)
    (h : Leaked url s) : Leaked url (onUploadChange rt c s).state := by
  cases hf : s.file with
  | none => simpa [onUploadChange, hf] using h
  | some file =>
    by_cases hsz : MAX_FILE_SIZE < file.size
    · rw [onUploadChange_too_large rt c s file hf hsz]
      have h2 := leaked_record url s (.showError (some MESSAGE_TOO_LARGE)) h (by simp)
      cases c.showError
      · exact h2
      · exact h2
    · have hle : file.size ≤ MAX_FILE_SIZE := by omega
      cases ht : FILE_TYPES.any (fun it => endsWith (rt.toLowerCase file.name) it) with
      | false =>
        rw [onUploadChange_wrong_type rt c s file hf hle ht]
        have h2 := leaked_record url s (.showError (some MESSAGE_WRONG_TYPE)) h (by simp)
        cases c.showError
        · exact h2
        · exact h2
      | true =>
        rw [onUploadChange_accepted rt c s file hf hle ht]
        obtain ⟨h1, h2, h3, h4⟩ := h
        refine ⟨?_, ?_, ?_, ?_⟩
        · simp [h1]
        · have hne : s.nextUrl ≠ url := Nat.ne_of_gt h3
          simp [hne]
        · exact Nat.lt_succ_of_lt h3
        · simp [h4]

theorem leaked_onImageError (url : Url) (c : Collaborators) (s : State) (h : Leaked url s) :
    Leaked url (onImageError c s).state := by
  unfold onImageError
  refine leaked_andThen url _ _ (leaked_hideForm url c s h) (fun s1 h1 => ?_)
  refine leaked_andThen url _ _ (leaked_callCollaborator url s1 _ _ h1 (by simp))
    (fun s2 h2 => ?_)
  exact h2

theorem leaked_onSubmitSettled (url : Url) (resolved : Bool) (c : Collaborators) (s : State)
    (h : Leaked url s) : Leaked url (onSubmitSettled resolved c s).state := by
  unfold onSubmitSettled
  refine leaked_tryCatchFinally url _ _ _ s h (fun s1 h1 => ?_)
    (fun s1 h1 => leaked_callCollaborator url s1 _ _ h1 (by simp))
    (fun s1 h1 => leaked_toggleSubmitButton url false s1 h1)
  split_ifs
  · exact h1
  · exact leaked_andThen url _ _ (leaked_hideForm url c s1 h1)
      (fun s2 h2 => leaked_callCollaborator url s2 _ _ h2 (by simp))

theorem leaked_onSubmit (url : Url) (valid : Bool) (s : State) (h : Leaked url s) :
    Leaked url (onSubmit valid s).state := by
  have h1 := leaked_record url _ .pristineValidate
    (leaked_record url s .preventDefault h (by simp)) (by simp)
  unfold onSubmit
  simp only
  split_ifs
  · exact h1
  · refine leaked_andThen url _ _ (leaked_toggleSubmitButton url true _ h1) (fun s2 h2 => ?_)
    exact leaked_record url s2 (.sendData s2.hashtags s2.comment s2.file) h2 (by simp)

/-- Once an object URL is live and no longer recorded, no event revokes it. -/
theorem leaked_step (url : Url) (rt : Runtime) (s : State) (e : Event) (h : Leaked url s) :
    Leaked url (step rt s e) := by
  cases e with
  | input hashtags comment => exact h
  | change file c => exact leaked_onUploadChange url rt c { s with file := file } h
  | load =>
    simp only [step]
    split_ifs
    · exact leaked_record url { s with loadListener := false } .showForm h (by simp)
    · exact h
  | error c =>
    simp only [step]
    split_ifs
    · exact leaked_onImageError url c { s with errorListener := false } h
    · exact h
  | keydown key focus c =>
    simp only [step, onEscKeydown]
    split_ifs
    · exact leaked_hideForm url c _ (leaked_record url s .preventDefault h (by simp))
    · exact h
    · exact h
  | cancel c => exact leaked_hideForm url c s h
  | submit valid => exact leaked_onSubmit url valid s h
  | settle resolved c =>
    simp only [step]
    split_ifs
    · exact h
    · exact leaked_onSubmitSettled url resolved c { s with pending := s.pending - 1 } h

theorem leaked_run (url : Url) (rt : Runtime) (events : List Event) :
    ∀ s : State, Leaked url s → Leaked url (run rt s events) := by
  induction events with
  | nil => intro s h; exact h
  | cons e rest ih =>
    intro s h
    exact ih (step rt s e) (leaked_step url rt s e h)

/-- C8 (the code at the failing input): the sequence of the specification
(select a valid file, hide, select another) has one live URL at a time, the
first being revoked once; but two valid selections in a row create a second
URL while the first is live, and the first is then live in every later state
and never revoked. -/
theorem second_selection_leaks_first_url :
    (run basicRuntime initialState
      [.change (some ⟨js "a.png", 100⟩) allReturn]).liveUrls = [0] ∧
    (run basicRuntime initialState
      [.change (some ⟨js "a.png", 100⟩) allReturn]).currentUrl = some 0 ∧
    (run basicRuntime initialState
      [.change (some ⟨js "a.png", 100⟩) allReturn, .cancel allReturn]).liveUrls = [] ∧
    (run basicRuntime initialState
      [.change (some ⟨js "a.png", 100⟩) allReturn, .cancel allReturn]).currentUrl = none ∧
    revocations (run basicRuntime initialState
      [.change (some ⟨js "a.png", 100⟩) allReturn, .cancel allReturn]) 0 = 1 ∧
    (run basicRuntime initialState
      [.change (some ⟨js "a.png", 100⟩) allReturn, .cancel allReturn,
        .change (some ⟨js "b.png", 100⟩) allReturn]).liveUrls = [1] ∧
    (run basicRuntime initialState
      [.change (some ⟨js "a.png", 100⟩) allReturn,
        .change (some ⟨js "b.png", 100⟩) allReturn]).liveUrls = [0, 1] ∧
    (run basicRuntime initialState
      [.change (some ⟨js "a.png", 100⟩) allReturn,
        .change (some ⟨js "b.png", 100⟩) allReturn]).currentUrl = some 1 ∧
    ∀ (rt : Runtime) (events : List Event),
      0 ∈ (run rt (run basicRuntime initialState
        [.change (some ⟨js "a.png", 100⟩) allReturn,
          .change (some ⟨js "b.png", 100⟩) allReturn]) events).liveUrls ∧
      revocations (run rt (run basicRuntime initialState
        [.change (some ⟨js "a.png", 100⟩) allReturn,
          .change (some ⟨js "b.png", 100⟩) allReturn]) events) 0 = 0 := by
  refine ⟨by decide, by decide, by decide, by decide, by decide, by decide, by decide,
    by decide, ?_⟩
  intro rt events
  have h0 : Leaked 0 (run basicRuntime initialState
      [.change (some ⟨js "a.png", 100⟩) allReturn,
        .change (some ⟨js "b.png", 100⟩) allReturn]) := by
    refine ⟨by decide, by decide, by decide, by decide⟩
  have h := leaked_run 0 rt events _ h0
  exact ⟨h.1, List.count_eq_zero.2 h.2.2.2⟩

end Form
